import Mathlib

/-!
Verification of the parallel orchestration and resilient batch-persistence
engine of `synthetic_data/synthetic_data_pipeline.py`.

The worker body `process_and_save_text` is embedded as a state-passing
function over an explicit worker state.  The two opaque conversion stages
(`TTSProcessor.convert_text_to_audio` followed by
`AudioTokenizer.process_single_audio`, together with the JSON
serialisation of their outputs) are modelled by an oracle
`proc : item position → attempt number → Option (String × String)`:
`none` means the attempt raised an exception, `some (a, t)` means the
attempt produced the serialised audio payload `a` and token payload `t`.
Durable-write calls may fail; oracles `saveBatchOk` / `saveFailedOk`,
indexed by the call number, decide whether the n-th such call raises.
Python exceptions are modelled by `Except` (for propagation out of the
worker) and by a `Bool` success flag inside the guarded `try` body.
-/

namespace SyntheticDataPipeline

/-- A successfully processed record.  The source builds a dict with fields
`index`, `audio` (a JSON string) and `tokens` (a JSON string); the `audio`
field is called `audioStr` here. -/
structure ProcessedRecord where
  index : Int
  audioStr : String
  tokens : String
deriving Repr, DecidableEq

/-- Observable durable-storage actions of one worker, in order. -/
inductive WEvent where
  /-- A successful `save_batch(batch, writer)` call appending `records`. -/
  | flushBatch (records : List ProcessedRecord)
  /-- A `save_batch` call that raised. -/
  | flushBatchFailed
  /-- A successful `save_failed_indices(indices, path)` call with a
  non-empty list. -/
  | writeFailedIndices (indices : List Int)
  /-- A `save_failed_indices` call that raised. -/
  | writeFailedIndicesFailed
  /-- The final `writer.close()`. -/
  | close
deriving Repr, DecidableEq

/-- Environment of one worker run: the conversion-stage oracle and the
write-failure oracles (see the module docstring). -/
structure WEnv where
  proc : Nat → Nat → Option (String × String)
  saveBatchOk : Nat → Bool
  saveFailedOk : Nat → Bool

/-- Mutable state of `process_and_save_text`: the in-memory `batch`, the
in-memory `failed_indices` list, the trace of durable-storage events, the
worker's contribution to the shared `processed_count`, the number of
`save_batch` / `save_failed_indices` calls made so far, and a trace of
`(item position, attempt number)` pairs, one per executed `try` body. -/
structure WState where
  batch : List ProcessedRecord
  failed : List Int
  events : List WEvent
  processed : Nat
  nSaveBatch : Nat
  nSaveFailed : Nat
  attempts : List (Nat × Nat)
deriving Repr, DecidableEq

/-- The worker state at entry: everything empty, counter zero. -/
def initWState : WState := ⟨[], [], [], 0, 0, 0, []⟩

/-- Modelled from the spec: `save_batch` (defined in `writer.py`, which is
not under src/) performs an atomic append of the batch to the worker's
private output store and may fail with a durable-write error.  Whether the
n-th call fails is decided by the `saveBatchOk` oracle; the call is
recorded in the event trace either way. -/
def saveBatchCall (env : WEnv) (b : List ProcessedRecord) (s : WState) : Bool × WState :=
  if env.saveBatchOk s.nSaveBatch then
    (true, { s with events := s.events ++ [WEvent.flushBatch b],
                    nSaveBatch := s.nSaveBatch + 1 })
  else
    (false, { s with events := s.events ++ [WEvent.flushBatchFailed],
                     nSaveBatch := s.nSaveBatch + 1 })

/-- Modelled from the spec: `save_failed_indices` (defined in `utils.py`,
which is not under src/) persists the accumulated failed-index list to the
worker-private file when the list is non-empty, and may fail with a
durable-write error; writing an empty list performs no durable action. -/
def saveFailedIndicesCall (env : WEnv) (l : List Int) (s : WState) : Bool × WState :=
  if l.isEmpty then (true, s)
  else if env.saveFailedOk s.nSaveFailed then
    (true, { s with events := s.events ++ [WEvent.writeFailedIndices l],
                    nSaveFailed := s.nSaveFailed + 1 })
  else
    (false, { s with events := s.events ++ [WEvent.writeFailedIndicesFailed],
                     nSaveFailed := s.nSaveFailed + 1 })

/-- Lines 95-106 of the source: append the new record to the in-memory
batch and, when the batch has reached `save_batch_size`, flush it with
`save_batch`, reset it, persist the failed-index list and reset that too.
The `Bool` is `false` when one of the two write calls raised; the state
then reflects exactly the mutations performed before the raise. -/
def offer (env : WEnv) (save_batch_size : Nat) (r : ProcessedRecord) (s : WState) :
    Bool × WState :=
  let s1 := { s with batch := s.batch ++ [r] }
  if save_batch_size ≤ s1.batch.length then
    match saveBatchCall env s1.batch s1 with
    | (false, s2) => (false, s2)
    | (true, s2) =>
      let s3 := { s2 with batch := [] }
      match saveFailedIndicesCall env s3.failed s3 with
      | (false, s4) => (false, s4)
      | (true, s4) => (true, { s4 with failed := [] })
  else (true, s1)

/-- One execution of the `try` body (lines 88-108): run the two conversion
stages via the oracle, and on success offer the record and increment the
shared counter.  The `(item position, attempt)` pair is recorded first;
`false` means an exception reached the `except` handler. -/
def tryBody (env : WEnv) (save_batch_size : Nat) (pos : Nat) (index : Int)
    (attempt : Nat) (s : WState) : Bool × WState :=
  let s0 := { s with attempts := s.attempts ++ [(pos, attempt)] }
  match env.proc pos attempt with
  | none => (false, s0)
  | some pt =>
    match offer env save_batch_size ⟨index, pt.1, pt.2⟩ s0 with
    | (false, s1) => (false, s1)
    | (true, s1) => (true, { s1 with processed := s1.processed + 1 })

/-- The `for attempt in range(max_retries)` loop (lines 87-117), with the
remaining iteration count as first argument.  On success the loop breaks;
on failure, when `attempt == max_retries - 1`, the item's index is
appended to the in-memory failed-index list. -/
def attemptLoop (env : WEnv) (save_batch_size max_retries : Nat) (pos : Nat)
    (index : Int) : Nat → Nat → WState → WState
  | 0, _, s => s
  | Nat.succ r, attempt, s =>
    match tryBody env save_batch_size pos index attempt s with
    | (true, s1) => s1
    | (false, s1) =>
      let s2 := if attempt = max_retries - 1
                then { s1 with failed := s1.failed ++ [index] } else s1
      attemptLoop env save_batch_size max_retries pos index r (attempt + 1) s2

/-- The outer `for text, index in zip(batch_prompt, batch_index)` loop
(lines 86-117); `pos` is the position of the current item in the chunk. -/
def itemLoop (env : WEnv) (save_batch_size max_retries : Nat) :
    List (String × Int) → Nat → WState → WState
  | [], _, s => s
  | item :: rest, pos, s =>
    itemLoop env save_batch_size max_retries rest (pos + 1)
      (attemptLoop env save_batch_size max_retries pos item.2 max_retries 0 s)

/-- The drain phase and `writer.close()` (lines 119-129): flush a
non-empty residual batch, then a non-empty residual failed-index list,
then close the writer.  These calls are outside any `try`, so a raise
propagates out of the worker: `Except.error` carries the state at the
raise (note that no `close` event is recorded on that path). -/
def drain (env : WEnv) (s : WState) : Except WState WState :=
  match (if s.batch.isEmpty then (true, s) else saveBatchCall env s.batch s) with
  | (false, s1) => Except.error s1
  | (true, s1) =>
    match (if s1.failed.isEmpty then (true, s1) else saveFailedIndicesCall env s1.failed s1) with
    | (false, s2) => Except.error s2
    | (true, s2) => Except.ok { s2 with events := s2.events ++ [WEvent.close] }

/-- The whole worker body `process_and_save_text` on a chunk `subset` of
`(prompt, index)` items: the item loop from the initial state, then the
drain phase. -/
def process_and_save_text (env : WEnv) (save_batch_size max_retries : Nat)
    (subset : List (String × Int)) : Except WState WState :=
  drain env (itemLoop env save_batch_size max_retries subset 0 initWState)

/-- First attempt number at which the conversion stages succeed for the
item at `pos`, searching `r` attempt numbers upward from `k`. -/
def firstSuccessAux (env : WEnv) (pos : Nat) : Nat → Nat → Option Nat
  | 0, _ => none
  | Nat.succ r, k =>
    if (env.proc pos k).isSome then some k else firstSuccessAux env pos r (k + 1)

/-- First attempt number below `max_retries` at which the conversion
stages succeed for the item at `pos`, if any. -/
def firstSuccess (env : WEnv) (max_retries pos : Nat) : Option Nat :=
  firstSuccessAux env pos max_retries 0

/-- The record the worker builds for the item at `pos` with dataset index
`index`, if some attempt below `max_retries` succeeds. -/
def itemRecord (env : WEnv) (max_retries pos : Nat) (index : Int) :
    Option ProcessedRecord :=
  match firstSuccess env max_retries pos with
  | none => none
  | some k =>
    match env.proc pos k with
    | none => none
    | some pt => some ⟨index, pt.1, pt.2⟩

/-- Records expected from a chunk, in order: one per successful item. -/
def expRecords (env : WEnv) (max_retries : Nat) :
    List (String × Int) → Nat → List ProcessedRecord
  | [], _ => []
  | item :: rest, pos =>
    (match itemRecord env max_retries pos item.2 with
     | some r => [r]
     | none => []) ++ expRecords env max_retries rest (pos + 1)

/-- Failed indices expected from a chunk, in order: one per item that
fails every attempt (when `max_retries = 0` the attempt loop never runs
and no index is recorded). -/
def expFailed (env : WEnv) (max_retries : Nat) :
    List (String × Int) → Nat → List Int
  | [], _ => []
  | item :: rest, pos =>
    (match firstSuccess env max_retries pos with
     | some _ => []
     | none => if max_retries = 0 then [] else [item.2]) ++
    expFailed env max_retries rest (pos + 1)

/-- Number of attempts the worker makes on the item at `pos`: up to and
including the first success, else `max_retries`. -/
def nAttempts (env : WEnv) (max_retries pos : Nat) : Nat :=
  match firstSuccess env max_retries pos with
  | some k => k + 1
  | none => max_retries

/-- Attempt trace expected from a chunk. -/
def expAttempts (env : WEnv) (max_retries : Nat) :
    List (String × Int) → Nat → List (Nat × Nat)
  | [], _ => []
  | _ :: rest, pos =>
    (List.range (nAttempts env max_retries pos)).map (fun a => (pos, a)) ++
    expAttempts env max_retries rest (pos + 1)

/-- Number of items of the chunk that succeed on some attempt. -/
def numSucc (env : WEnv) (max_retries : Nat) : List (String × Int) → Nat → Nat
  | [], _ => 0
  | _ :: rest, pos =>
    (if (firstSuccess env max_retries pos).isSome then 1 else 0) +
    numSucc env max_retries rest (pos + 1)

/-- Records carried by one event (non-empty only for a successful batch
flush). -/
def recsOf (e : WEvent) : List ProcessedRecord :=
  match e with
  | WEvent.flushBatch b => b
  | _ => []

/-- All records durably written so far, in order. -/
def flushedRecs : List WEvent → List ProcessedRecord
  | [] => []
  | e :: rest => recsOf e ++ flushedRecs rest

/-- Failed indices carried by one event. -/
def failsOf (e : WEvent) : List Int :=
  match e with
  | WEvent.writeFailedIndices l => l
  | _ => []

/-- All failed indices durably written so far, in order. -/
def flushedFailed : List WEvent → List Int
  | [] => []
  | e :: rest => failsOf e ++ flushedFailed rest

/-- Reliable durable storage: no write call ever raises. -/
def allWritesOk (env : WEnv) : Prop :=
  (∀ n, env.saveBatchOk n = true) ∧ (∀ n, env.saveFailedOk n = true)

lemma flushedRecs_append (a b : List WEvent) :
    flushedRecs (a ++ b) = flushedRecs a ++ flushedRecs b := by
  induction a with
  | nil => simp [flushedRecs]
  | cons e rest ih => simp [flushedRecs, ih]

lemma flushedFailed_append (a b : List WEvent) :
    flushedFailed (a ++ b) = flushedFailed a ++ flushedFailed b := by
  induction a with
  | nil => simp [flushedFailed]
  | cons e rest ih => simp [flushedFailed, ih]

lemma firstSuccessAux_some (env : WEnv) (pos : Nat) :
    ∀ r k j, firstSuccessAux env pos r k = some j →
      k ≤ j ∧ j < k + r ∧ (env.proc pos j).isSome = true := by
  intro r
  induction r with
  | zero => intro k j h; simp [firstSuccessAux] at h
  | succ r ih =>
    intro k j h
    by_cases hp : (env.proc pos k).isSome
    · simp [firstSuccessAux, hp] at h
      subst h
      exact ⟨Nat.le_refl k, by omega, hp⟩
    · simp [firstSuccessAux, hp] at h
      obtain ⟨h1, h2, h3⟩ := ih (k + 1) j h
      exact ⟨by omega, by omega, h3⟩

lemma tryBody_fail (env : WEnv) (sbs pos : Nat) (index : Int) (attempt : Nat)
    (s : WState) (hp : env.proc pos attempt = none) :
    tryBody env sbs pos index attempt s =
      (false, { s with attempts := s.attempts ++ [(pos, attempt)] }) := by
  simp [tryBody, hp]

lemma offer_ok (env : WEnv) (sbs : Nat) (r : ProcessedRecord) (s : WState)
    (h : allWritesOk env) :
    ∃ s', offer env sbs r s = (true, s') ∧
      flushedRecs s'.events ++ s'.batch = flushedRecs s.events ++ (s.batch ++ [r]) ∧
      flushedFailed s'.events ++ s'.failed = flushedFailed s.events ++ s.failed ∧
      s'.processed = s.processed ∧ s'.attempts = s.attempts := by
  by_cases hth : sbs ≤ s.batch.length + 1
  · cases hf : s.failed with
    | nil =>
      refine Exists.intro
        { s with batch := [], failed := [],
                 events := s.events ++ [WEvent.flushBatch (s.batch ++ [r])],
                 nSaveBatch := s.nSaveBatch + 1 } ⟨?_, ?_, ?_, rfl, rfl⟩
      · simp [offer, saveBatchCall, saveFailedIndicesCall, hth, h.1, hf]
      · simp [flushedRecs_append, flushedRecs, recsOf]
      · simp [flushedFailed_append, flushedFailed, failsOf, hf]
    | cons i l =>
      refine Exists.intro
        { s with batch := [], failed := [],
                 events := s.events ++ [WEvent.flushBatch (s.batch ++ [r]),
                   WEvent.writeFailedIndices (i :: l)],
                 nSaveBatch := s.nSaveBatch + 1,
                 nSaveFailed := s.nSaveFailed + 1 } ⟨?_, ?_, ?_, rfl, rfl⟩
      · simp [offer, saveBatchCall, saveFailedIndicesCall, hth, h.1, h.2, hf]
      · simp [flushedRecs_append, flushedRecs, recsOf]
      · simp [flushedFailed_append, flushedFailed, failsOf, hf]
  · refine Exists.intro { s with batch := s.batch ++ [r] } ⟨?_, ?_, ?_, rfl, rfl⟩
    · simp [offer, hth]
    · simp
    · simp

lemma tryBody_succ (env : WEnv) (sbs pos : Nat) (index : Int) (attempt : Nat)
    (pt : String × String) (s : WState) (h : allWritesOk env)
    (hp : env.proc pos attempt = some pt) :
    ∃ s', tryBody env sbs pos index attempt s = (true, s') ∧
      flushedRecs s'.events ++ s'.batch =
        flushedRecs s.events ++ (s.batch ++ [⟨index, pt.1, pt.2⟩]) ∧
      flushedFailed s'.events ++ s'.failed = flushedFailed s.events ++ s.failed ∧
      s'.processed = s.processed + 1 ∧
      s'.attempts = s.attempts ++ [(pos, attempt)] := by
  obtain ⟨s', hrun, h1, h2, h3, h4⟩ :=
    offer_ok env sbs ⟨index, pt.1, pt.2⟩
      { s with attempts := s.attempts ++ [(pos, attempt)] } h
  refine ⟨{ s' with processed := s'.processed + 1 }, ?_, ?_, ?_, ?_, ?_⟩
  · simp [tryBody, hp, hrun]
  · simpa using h1
  · simpa using h2
  · simpa using h3
  · simpa using h4

lemma attemptLoop_succ (env : WEnv) (sbs maxr pos : Nat) (index : Int)
    (h : allWritesOk env) :
    ∀ r k s j pt, firstSuccessAux env pos r k = some j → env.proc pos j = some pt →
      k + r ≤ maxr →
      ∃ s', attemptLoop env sbs maxr pos index r k s = s' ∧
        flushedRecs s'.events ++ s'.batch =
          flushedRecs s.events ++ (s.batch ++ [⟨index, pt.1, pt.2⟩]) ∧
        flushedFailed s'.events ++ s'.failed = flushedFailed s.events ++ s.failed ∧
        s'.processed = s.processed + 1 ∧
        s'.attempts = s.attempts ++ (List.range' k (j + 1 - k)).map (fun a => (pos, a)) := by
  intro r
  induction r with
  | zero => intro k s j pt hfs; simp [firstSuccessAux] at hfs
  | succ r ih =>
    intro k s j pt hfs hpt hkr
    by_cases hp : (env.proc pos k).isSome
    · simp [firstSuccessAux, hp] at hfs
      subst hfs
      obtain ⟨s', hrun, h1, h2, h3, h4⟩ := tryBody_succ env sbs pos index k pt s h hpt
      refine ⟨s', ?_, h1, h2, h3, ?_⟩
      · simp [attemptLoop, hrun]
      · simpa [List.range'] using h4
    · simp [firstSuccessAux, hp] at hfs
      obtain ⟨hkj, hjr, hjs⟩ := firstSuccessAux_some env pos r (k + 1) j hfs
      have hpk : env.proc pos k = none := by
        cases hpk : env.proc pos k with
        | none => rfl
        | some v => rw [hpk] at hp; simp at hp
      have hkne : ¬(k = maxr - 1) := by omega
      obtain ⟨s', hrun, h1, h2, h3, h4⟩ :=
        ih (k + 1) { s with attempts := s.attempts ++ [(pos, k)] } j pt hfs hpt
          (by omega)
      refine ⟨s', ?_, by simpa using h1, by simpa using h2, by simpa using h3, ?_⟩
      · rw [attemptLoop, tryBody_fail env sbs pos index k s hpk]
        simp [hkne, hrun]
      · have hj1 : j + 1 - k = (j - k) + 1 := by omega
        have hj2 : j + 1 - (k + 1) = j - k := by omega
        rw [hj1, List.range'_succ]
        simpa [hj2] using h4

lemma attemptLoop_fail (env : WEnv) (sbs maxr pos : Nat) (index : Int) :
    ∀ r k s, firstSuccessAux env pos r k = none → k + r = maxr →
      attemptLoop env sbs maxr pos index r k s =
        { s with attempts := s.attempts ++ (List.range' k r).map (fun a => (pos, a)),
                 failed := s.failed ++ (if r = 0 then [] else [index]) } := by
  intro r
  induction r with
  | zero => intro k s hfs hkr; simp [attemptLoop, List.range']
  | succ r ih =>
    intro k s hfs hkr
    by_cases hp : (env.proc pos k).isSome
    · simp [firstSuccessAux, hp] at hfs
    · simp [firstSuccessAux, hp] at hfs
      have hpk : env.proc pos k = none := by
        cases hpk : env.proc pos k with
        | none => rfl
        | some v => rw [hpk] at hp; simp at hp
      rw [attemptLoop, tryBody_fail env sbs pos index k s hpk]
      cases r with
      | zero =>
        have hk : k = maxr - 1 := by omega
        simp only [hk, if_pos rfl]
        simp [attemptLoop, List.range']
      | succ r' =>
        have hkne : ¬(k = maxr - 1) := by omega
        simp only [hkne, if_neg, ite_false]
        rw [ih (k + 1) { s with attempts := s.attempts ++ [(pos, k)] } hfs (by omega)]
        simp [List.range'_succ]

lemma itemLoop_char (env : WEnv) (sbs maxr : Nat) (h : allWritesOk env) :
    ∀ (items : List (String × Int)) (pos : Nat) (s : WState),
      ∃ s', itemLoop env sbs maxr items pos s = s' ∧
        flushedRecs s'.events ++ s'.batch =
          (flushedRecs s.events ++ s.batch) ++ expRecords env maxr items pos ∧
        flushedFailed s'.events ++ s'.failed =
          (flushedFailed s.events ++ s.failed) ++ expFailed env maxr items pos ∧
        s'.processed = s.processed + numSucc env maxr items pos ∧
        s'.attempts = s.attempts ++ expAttempts env maxr items pos := by
  intro items
  induction items with
  | nil => intro pos s; exact ⟨s, rfl, by simp [expRecords], by simp [expFailed],
      by simp [numSucc], by simp [expAttempts]⟩
  | cons item rest ih =>
    intro pos s
    cases hfs : firstSuccess env maxr pos with
    | some j =>
      obtain ⟨hkj, hjr, hjs⟩ := firstSuccessAux_some env pos maxr 0 j hfs
      obtain ⟨pt, hpt⟩ := Option.isSome_iff_exists.mp hjs
      obtain ⟨s1, hrun1, ha1, hb1, hc1, hd1⟩ :=
        attemptLoop_succ env sbs maxr pos item.2 h maxr 0 s j pt hfs hpt (by omega)
      obtain ⟨s', hrun2, ha2, hb2, hc2, hd2⟩ := ih (pos + 1) s1
      refine ⟨s', ?_, ?_, ?_, ?_, ?_⟩
      · simp [itemLoop, hrun1, hrun2]
      · rw [ha2, ha1]
        simp [expRecords, itemRecord, hfs, hpt]
      · rw [hb2, hb1]
        simp [expFailed, hfs]
      · rw [hc2, hc1]
        simp [numSucc, hfs]
        omega
      · rw [hd2, hd1]
        simp [expAttempts, nAttempts, hfs, List.range_eq_range']
    | none =>
      have hrun1 := attemptLoop_fail env sbs maxr pos item.2 maxr 0 s hfs (by omega)
      obtain ⟨s', hrun2, ha2, hb2, hc2, hd2⟩ := ih (pos + 1)
        { s with attempts := s.attempts ++ (List.range' 0 maxr).map (fun a => (pos, a)),
                 failed := s.failed ++ (if maxr = 0 then [] else [item.2]) }
      refine ⟨s', ?_, ?_, ?_, ?_, ?_⟩
      · simp [itemLoop, hrun1, hrun2]
      · rw [ha2]
        simp [expRecords, itemRecord, hfs]
      · rw [hb2]
        simp [expFailed, hfs]
      · rw [hc2]
        simp [numSucc, hfs]
      · rw [hd2]
        simp [expAttempts, nAttempts, hfs, List.range_eq_range']

lemma drain_ok_char (env : WEnv) (s : WState) (h : allWritesOk env) :
    ∃ s2, drain env s = Except.ok s2 ∧
      s2.events = s.events ++
        ((if s.batch.isEmpty then [] else [WEvent.flushBatch s.batch]) ++
         (if s.failed.isEmpty then [] else [WEvent.writeFailedIndices s.failed]) ++
         [WEvent.close]) ∧
      s2.batch = s.batch ∧ s2.failed = s.failed ∧
      s2.processed = s.processed ∧ s2.attempts = s.attempts := by
  cases hb : s.batch with
  | nil =>
    cases hf : s.failed with
    | nil =>
      refine Exists.intro { s with events := s.events ++ [WEvent.close] }
        ⟨?_, by simp [hb, hf], by simp [hb], by simp [hf], rfl, rfl⟩
      simp [drain, hb, hf]
    | cons i l =>
      refine Exists.intro
        { s with events := s.events ++ [WEvent.writeFailedIndices (i :: l), WEvent.close],
                 nSaveFailed := s.nSaveFailed + 1 }
        ⟨?_, by simp [hb, hf], by simp [hb], by simp [hf], rfl, rfl⟩
      simp [drain, saveFailedIndicesCall, hb, hf, h.2]
  | cons b bs =>
    cases hf : s.failed with
    | nil =>
      refine Exists.intro
        { s with events := s.events ++ [WEvent.flushBatch (b :: bs), WEvent.close],
                 nSaveBatch := s.nSaveBatch + 1 }
        ⟨?_, by simp [hb, hf], by simp [hb], by simp [hf], rfl, rfl⟩
      simp [drain, saveBatchCall, hb, hf, h.1]
    | cons i l =>
      refine Exists.intro
        { s with events := s.events ++ [WEvent.flushBatch (b :: bs),
                   WEvent.writeFailedIndices (i :: l), WEvent.close],
                 nSaveBatch := s.nSaveBatch + 1,
                 nSaveFailed := s.nSaveFailed + 1 }
        ⟨?_, by simp [hb, hf], by simp [hb], by simp [hf], rfl, rfl⟩
      simp [drain, saveBatchCall, saveFailedIndicesCall, hb, hf, h.1, h.2]

lemma worker_char (env : WEnv) (sbs maxr : Nat) (items : List (String × Int))
    (h : allWritesOk env) :
    ∃ s', process_and_save_text env sbs maxr items = Except.ok s' ∧
      flushedRecs s'.events = expRecords env maxr items 0 ∧
      flushedFailed s'.events = expFailed env maxr items 0 ∧
      s'.processed = numSucc env maxr items 0 ∧
      s'.attempts = expAttempts env maxr items 0 ∧
      s'.events.getLast? = some WEvent.close := by
  obtain ⟨s1, hrun1, ha1, hb1, hc1, hd1⟩ := itemLoop_char env sbs maxr h items 0 initWState
  obtain ⟨s2, hrun2, he2, hbt2, hf2, hp2, hat2⟩ := drain_ok_char env s1 h
  have ha1' : flushedRecs s1.events ++ s1.batch = expRecords env maxr items 0 := by
    simpa [initWState, flushedRecs] using ha1
  have hb1' : flushedFailed s1.events ++ s1.failed = expFailed env maxr items 0 := by
    simpa [initWState, flushedFailed] using hb1
  refine ⟨s2, ?_, ?_, ?_, ?_, ?_, ?_⟩
  · simp [process_and_save_text, hrun1, hrun2]
  · rw [he2, flushedRecs_append]
    rw [← ha1']
    congr 1
    cases hbt : s1.batch with
    | nil =>
      cases hfl : s1.failed with
      | nil => simp [hbt, hfl, flushedRecs_append, flushedRecs, recsOf]
      | cons i l => simp [hbt, hfl, flushedRecs_append, flushedRecs, recsOf]
    | cons b bs =>
      cases hfl : s1.failed with
      | nil => simp [hbt, hfl, flushedRecs_append, flushedRecs, recsOf]
      | cons i l => simp [hbt, hfl, flushedRecs_append, flushedRecs, recsOf]
  · rw [he2, flushedFailed_append]
    rw [← hb1']
    congr 1
    cases hfl : s1.failed with
    | nil =>
      cases hbt : s1.batch with
      | nil => simp [hbt, hfl, flushedFailed_append, flushedFailed, failsOf]
      | cons b bs => simp [hbt, hfl, flushedFailed_append, flushedFailed, failsOf]
    | cons i l =>
      cases hbt : s1.batch with
      | nil => simp [hbt, hfl, flushedFailed_append, flushedFailed, failsOf]
      | cons b bs => simp [hbt, hfl, flushedFailed_append, flushedFailed, failsOf]
  · rw [hp2, hc1]; simp [initWState]
  · rw [hat2, hd1]; simp [initWState]
  · rw [he2]
    rw [show s1.events ++
        ((if s1.batch.isEmpty then [] else [WEvent.flushBatch s1.batch]) ++
         (if s1.failed.isEmpty then [] else [WEvent.writeFailedIndices s1.failed]) ++
         [WEvent.close]) =
        (s1.events ++
         ((if s1.batch.isEmpty then [] else [WEvent.flushBatch s1.batch]) ++
          (if s1.failed.isEmpty then [] else [WEvent.writeFailedIndices s1.failed]))) ++
        [WEvent.close] by simp]
    exact List.getLast?_concat _

lemma itemRecord_index (env : WEnv) (maxr pos : Nat) (idx : Int)
    (r : ProcessedRecord) (h : itemRecord env maxr pos idx = some r) :
    r.index = idx := by
  cases hfs : firstSuccess env maxr pos with
  | none => simp [itemRecord, hfs] at h
  | some k =>
    cases hp : env.proc pos k with
    | none => simp [itemRecord, hfs, hp] at h
    | some pt =>
      simp [itemRecord, hfs, hp] at h
      subst h
      rfl

lemma mem_expRecords_index (env : WEnv) (maxr : Nat) :
    ∀ (items : List (String × Int)) (pos : Nat) (r : ProcessedRecord),
      r ∈ expRecords env maxr items pos → r.index ∈ items.map Prod.snd := by
  intro items
  induction items with
  | nil => intro pos r hr; simp [expRecords] at hr
  | cons item rest ih =>
    intro pos r hr
    cases hir : itemRecord env maxr pos item.2 with
    | none =>
      simp only [expRecords, hir, List.nil_append] at hr
      simp only [List.map_cons, List.mem_cons]
      exact Or.inr (ih (pos + 1) r hr)
    | some r0 =>
      simp only [expRecords, hir, List.singleton_append, List.mem_cons] at hr
      rcases hr with h1 | h2
      · subst h1
        simp only [List.map_cons, List.mem_cons]
        exact Or.inl (itemRecord_index env maxr pos item.2 r hir)
      · simp only [List.map_cons, List.mem_cons]
        exact Or.inr (ih (pos + 1) r h2)

lemma itemRecord_of_firstSuccess (env : WEnv) (maxr pos : Nat) (idx : Int)
    (k : Nat) (hfs : firstSuccess env maxr pos = some k) :
    ∃ pt, env.proc pos k = some pt ∧
      itemRecord env maxr pos idx = some ⟨idx, pt.1, pt.2⟩ := by
  have h3 := (firstSuccessAux_some env pos maxr 0 k hfs).2.2
  obtain ⟨pt, hpt⟩ := Option.isSome_iff_exists.mp h3
  exact ⟨pt, hpt, by simp [itemRecord, hfs, hpt]⟩

lemma expRecords_countP_one (env : WEnv) (maxr : Nat) :
    ∀ (items : List (String × Int)) (pos p : Nat) (item : String × Int),
      (items.map Prod.snd).Nodup → items.get? p = some item →
      (firstSuccess env maxr (pos + p)).isSome = true →
      (expRecords env maxr items pos).countP (fun r => r.index = item.2) = 1 := by
  intro items
  induction items with
  | nil => intro pos p item _ hget; simp at hget
  | cons item0 rest ih =>
    intro pos p item hnd hget hs
    rw [List.map_cons] at hnd
    have hnd' := List.nodup_cons.mp hnd
    cases p with
    | zero =>
      simp only [List.get?] at hget
      injection hget with hget
      subst hget
      rw [Nat.add_zero] at hs
      obtain ⟨k, hfs⟩ : ∃ k, firstSuccess env maxr pos = some k := by
        cases hfs' : firstSuccess env maxr pos with
        | none => rw [hfs'] at hs; simp at hs
        | some k => exact ⟨k, rfl⟩
      obtain ⟨pt, hpt, hir⟩ := itemRecord_of_firstSuccess env maxr pos item0.2 k hfs
      simp only [expRecords, hir, List.singleton_append, List.countP_cons]
      have htail : (expRecords env maxr rest (pos + 1)).countP
          (fun r => r.index = item0.2) = 0 := by
        rw [List.countP_eq_zero]
        intro r hr
        have hmem := mem_expRecords_index env maxr rest (pos + 1) r hr
        simp only [decide_eq_true_eq]
        intro heq
        rw [heq] at hmem
        exact hnd'.1 hmem
      rw [htail]
      simp
    | succ q =>
      simp only [List.get?] at hget
      have hmem : item.2 ∈ rest.map Prod.snd :=
        List.mem_map_of_mem Prod.snd (List.get?_mem hget)
      have hne : ¬(item0.2 = item.2) := by
        intro heq
        rw [heq] at hnd'
        exact hnd'.1 hmem
      have hs' : (firstSuccess env maxr ((pos + 1) + q)).isSome = true := by
        have : pos + (q + 1) = (pos + 1) + q := by omega
        rw [← this]
        exact hs
      have hih := ih (pos + 1) q item hnd'.2 hget hs'
      cases hir : itemRecord env maxr pos item0.2 with
      | none =>
        simp only [expRecords, hir, List.nil_append]
        exact hih
      | some r0 =>
        have hr0 := itemRecord_index env maxr pos item0.2 r0 hir
        simp only [expRecords, hir, List.singleton_append, List.countP_cons, hih]
        simp [hr0, hne]

lemma expRecords_fail_ne (env : WEnv) (maxr : Nat) :
    ∀ (items : List (String × Int)) (pos p : Nat) (item : String × Int),
      (items.map Prod.snd).Nodup → items.get? p = some item →
      firstSuccess env maxr (pos + p) = none →
      ∀ r ∈ expRecords env maxr items pos, r.index ≠ item.2 := by
  intro items
  induction items with
  | nil => intro pos p item _ hget; simp at hget
  | cons item0 rest ih =>
    intro pos p item hnd hget hfail r hr
    rw [List.map_cons] at hnd
    have hnd' := List.nodup_cons.mp hnd
    cases p with
    | zero =>
      simp only [List.get?] at hget
      injection hget with hget
      subst hget
      rw [Nat.add_zero] at hfail
      simp only [expRecords, itemRecord, hfail, List.nil_append] at hr
      have hmem := mem_expRecords_index env maxr rest (pos + 1) r hr
      intro heq
      rw [heq] at hmem
      exact hnd'.1 hmem
    | succ q =>
      simp only [List.get?] at hget
      have hfail' : firstSuccess env maxr ((pos + 1) + q) = none := by
        have : pos + (q + 1) = (pos + 1) + q := by omega
        rw [← this]
        exact hfail
      cases hir : itemRecord env maxr pos item0.2 with
      | none =>
        simp only [expRecords, hir, List.nil_append] at hr
        exact ih (pos + 1) q item hnd'.2 hget hfail' r hr
      | some r0 =>
        simp only [expRecords, hir, List.singleton_append, List.mem_cons] at hr
        rcases hr with h1 | h2
        · subst h1
          rw [itemRecord_index env maxr pos item0.2 r hir]
          intro heq
          rw [heq] at hnd'
          exact hnd'.1 (List.mem_map_of_mem Prod.snd (List.get?_mem hget))
        · exact ih (pos + 1) q item hnd'.2 hget hfail' r h2

lemma expFailed_mem (env : WEnv) (maxr : Nat) :
    ∀ (items : List (String × Int)) (pos p : Nat) (item : String × Int),
      items.get? p = some item → firstSuccess env maxr (pos + p) = none →
      maxr ≠ 0 → item.2 ∈ expFailed env maxr items pos := by
  intro items
  induction items with
  | nil => intro pos p item hget; simp at hget
  | cons item0 rest ih =>
    intro pos p item hget hfail hmr
    cases p with
    | zero =>
      simp only [List.get?] at hget
      injection hget with hget
      subst hget
      rw [Nat.add_zero] at hfail
      simp [expFailed, hfail, hmr]
    | succ q =>
      simp only [List.get?] at hget
      have hfail' : firstSuccess env maxr ((pos + 1) + q) = none := by
        have : pos + (q + 1) = (pos + 1) + q := by omega
        rw [← this]
        exact hfail
      have := ih (pos + 1) q item hget hfail' hmr
      cases hfs : firstSuccess env maxr pos with
      | none => simp [expFailed, hfs, this]
      | some k => simp [expFailed, hfs, this]

lemma expAttempts_filter_lt (env : WEnv) (maxr : Nat) :
    ∀ (items : List (String × Int)) (pos q : Nat), q < pos →
      (expAttempts env maxr items pos).filter (fun x => x.1 = q) = [] := by
  intro items
  induction items with
  | nil => intro pos q _; simp [expAttempts]
  | cons item0 rest ih =>
    intro pos q hq
    simp only [expAttempts, List.filter_append]
    rw [ih (pos + 1) q (by omega), List.append_nil]
    rw [List.filter_eq_nil_iff]
    intro a ha
    obtain ⟨b, _, hb⟩ := List.mem_map.mp ha
    subst hb
    simp only [decide_eq_true_eq]
    omega

lemma expAttempts_filter (env : WEnv) (maxr : Nat) :
    ∀ (items : List (String × Int)) (pos p : Nat) (item : String × Int),
      items.get? p = some item →
      (expAttempts env maxr items pos).filter (fun x => x.1 = pos + p) =
        (List.range (nAttempts env maxr (pos + p))).map (fun a => (pos + p, a)) := by
  intro items
  induction items with
  | nil => intro pos p item hget; simp at hget
  | cons item0 rest ih =>
    intro pos p item hget
    cases p with
    | zero =>
      simp only [List.get?] at hget
      simp only [expAttempts, List.filter_append, Nat.add_zero]
      rw [expAttempts_filter_lt env maxr rest (pos + 1) pos (by omega), List.append_nil]
      apply List.filter_eq_self.mpr
      intro a ha
      obtain ⟨b, _, hb⟩ := List.mem_map.mp ha
      subst hb
      simp
    | succ q =>
      simp only [List.get?] at hget
      have hpq : pos + (q + 1) = (pos + 1) + q := by omega
      simp only [expAttempts, List.filter_append, hpq]
      rw [ih (pos + 1) q item hget]
      have hnil : (List.filter (fun x => decide (x.1 = pos + 1 + q))
          ((List.range (nAttempts env maxr pos)).map (fun a => (pos, a)))) = [] := by
        rw [List.filter_eq_nil_iff]
        intro a ha
        obtain ⟨b, _, hb⟩ := List.mem_map.mp ha
        subst hb
        simp only [decide_eq_true_eq]
        omega
      rw [hnil, List.nil_append]

lemma numSucc_le (env : WEnv) (maxr : Nat) :
    ∀ (items : List (String × Int)) (pos : Nat),
      numSucc env maxr items pos ≤ items.length := by
  intro items
  induction items with
  | nil => intro pos; simp [numSucc]
  | cons item0 rest ih =>
    intro pos
    have := ih (pos + 1)
    cases hfs : (firstSuccess env maxr pos).isSome <;>
      simp [numSucc, hfs, List.length_cons] <;> omega

lemma offer_close_free (env : WEnv) (sbs : Nat) (r : ProcessedRecord) (s : WState) :
    ∃ t, ((offer env sbs r s).2).events = s.events ++ t ∧ WEvent.close ∉ t ∧
      ((offer env sbs r s).2).attempts = s.attempts := by
  by_cases hth : sbs ≤ s.batch.length + 1
  · by_cases hsb : env.saveBatchOk s.nSaveBatch
    · cases hf : s.failed with
      | nil =>
        exact ⟨[WEvent.flushBatch (s.batch ++ [r])],
          by simp [offer, saveBatchCall, saveFailedIndicesCall, hth, hsb, hf],
          by simp, by simp [offer, saveBatchCall, saveFailedIndicesCall, hth, hsb, hf]⟩
      | cons i l =>
        by_cases hsf : env.saveFailedOk s.nSaveFailed
        · exact ⟨[WEvent.flushBatch (s.batch ++ [r]), WEvent.writeFailedIndices (i :: l)],
            by simp [offer, saveBatchCall, saveFailedIndicesCall, hth, hsb, hsf, hf],
            by simp, by simp [offer, saveBatchCall, saveFailedIndicesCall, hth, hsb, hsf, hf]⟩
        · exact ⟨[WEvent.flushBatch (s.batch ++ [r]), WEvent.writeFailedIndicesFailed],
            by simp [offer, saveBatchCall, saveFailedIndicesCall, hth, hsb, hsf, hf],
            by simp, by simp [offer, saveBatchCall, saveFailedIndicesCall, hth, hsb, hsf, hf]⟩
    · exact ⟨[WEvent.flushBatchFailed],
        by simp [offer, saveBatchCall, hth, hsb], by simp,
        by simp [offer, saveBatchCall, hth, hsb]⟩
  · exact ⟨[], by simp [offer, hth], by simp, by simp [offer, hth]⟩

lemma tryBody_close_free (env : WEnv) (sbs pos : Nat) (index : Int) (attempt : Nat)
    (s : WState) :
    ∃ t, ((tryBody env sbs pos index attempt s).2).events = s.events ++ t ∧
      WEvent.close ∉ t ∧
      ((tryBody env sbs pos index attempt s).2).attempts =
        s.attempts ++ [(pos, attempt)] := by
  cases hp : env.proc pos attempt with
  | none => exact ⟨[], by simp [tryBody, hp], by simp, by simp [tryBody, hp]⟩
  | some pt =>
    obtain ⟨t, ht, hc, hat⟩ := offer_close_free env sbs ⟨index, pt.1, pt.2⟩
      { s with attempts := s.attempts ++ [(pos, attempt)] }
    refine ⟨t, ?_, hc, ?_⟩
    · simp only [tryBody, hp]
      cases ho : offer env sbs ⟨index, pt.1, pt.2⟩
          { s with attempts := s.attempts ++ [(pos, attempt)] } with
      | mk b s1 =>
        rw [ho] at ht
        cases b <;> simpa using ht
    · simp only [tryBody, hp]
      cases ho : offer env sbs ⟨index, pt.1, pt.2⟩
          { s with attempts := s.attempts ++ [(pos, attempt)] } with
      | mk b s1 =>
        rw [ho] at hat
        cases b <;> simpa using hat

lemma attemptLoop_close_free (env : WEnv) (sbs maxr pos : Nat) (index : Int) :
    ∀ r k s, ∃ t u, (attemptLoop env sbs maxr pos index r k s).events = s.events ++ t ∧
      WEvent.close ∉ t ∧
      (attemptLoop env sbs maxr pos index r k s).attempts = s.attempts ++ u ∧
      (r ≠ 0 → (pos, k) ∈ u) := by
  intro r
  induction r with
  | zero => intro k s; exact ⟨[], [], by simp [attemptLoop], by simp,
      by simp [attemptLoop], by simp⟩
  | succ r ih =>
    intro k s
    obtain ⟨t1, ht1, hc1, hat1⟩ := tryBody_close_free env sbs pos index k s
    cases htr : tryBody env sbs pos index k s with
    | mk b s1 =>
      rw [htr] at ht1 hat1
      replace ht1 : s1.events = s.events ++ t1 := ht1
      replace hat1 : s1.attempts = s.attempts ++ [(pos, k)] := hat1
      cases b with
      | true =>
        refine ⟨t1, [(pos, k)], ?_, hc1, ?_, ?_⟩
        · simpa [attemptLoop, htr] using ht1
        · simpa [attemptLoop, htr] using hat1
        · simp
      | false =>
        by_cases hmr : k = maxr - 1
        · obtain ⟨t2, u2, ht2, hc2, hat2, _⟩ :=
            ih (k + 1) { s1 with failed := s1.failed ++ [index] }
          refine ⟨t1 ++ t2, (pos, k) :: u2, ?_, ?_, ?_, ?_⟩
          · simp only [attemptLoop, htr]
            rw [if_pos hmr, ht2]
            simp [ht1]
          · simp only [List.mem_append]
            intro hcc
            rcases hcc with hcc | hcc
            · exact hc1 hcc
            · exact hc2 hcc
          · simp only [attemptLoop, htr]
            rw [if_pos hmr, hat2]
            simp [hat1]
          · intro
            simp
        · obtain ⟨t2, u2, ht2, hc2, hat2, _⟩ := ih (k + 1) s1
          refine ⟨t1 ++ t2, (pos, k) :: u2, ?_, ?_, ?_, ?_⟩
          · simp only [attemptLoop, htr]
            rw [if_neg hmr, ht2]
            simp [ht1]
          · simp only [List.mem_append]
            intro hcc
            rcases hcc with hcc | hcc
            · exact hc1 hcc
            · exact hc2 hcc
          · simp only [attemptLoop, htr]
            rw [if_neg hmr, hat2]
            simp [hat1]
          · intro
            simp

lemma itemLoop_close_free (env : WEnv) (sbs maxr : Nat) :
    ∀ (items : List (String × Int)) (pos : Nat) (s : WState),
      ∃ t u, (itemLoop env sbs maxr items pos s).events = s.events ++ t ∧
        WEvent.close ∉ t ∧
        (itemLoop env sbs maxr items pos s).attempts = s.attempts ++ u := by
  intro items
  induction items with
  | nil => intro pos s; exact ⟨[], [], by simp [itemLoop], by simp, by simp [itemLoop]⟩
  | cons item rest ih =>
    intro pos s
    obtain ⟨t1, u1, ht1, hc1, hat1, _⟩ :=
      attemptLoop_close_free env sbs maxr pos item.2 maxr 0 s
    obtain ⟨t2, u2, ht2, hc2, hat2⟩ :=
      ih (pos + 1) (attemptLoop env sbs maxr pos item.2 maxr 0 s)
    refine ⟨t1 ++ t2, u1 ++ u2, ?_, ?_, ?_⟩
    · simp only [itemLoop]
      rw [ht2, ht1]
      simp
    · simp only [List.mem_append]
      intro hcc
      rcases hcc with hcc | hcc
      · exact hc1 hcc
      · exact hc2 hcc
    · simp only [itemLoop]
      rw [hat2, hat1]
      simp

lemma itemLoop_attempted (env : WEnv) (sbs maxr : Nat) (hmr : maxr ≠ 0) :
    ∀ (items : List (String × Int)) (pos : Nat) (s : WState) (q : Nat)
      (item : String × Int), items.get? q = some item →
      ∃ a, (pos + q, a) ∈ (itemLoop env sbs maxr items pos s).attempts := by
  intro items
  induction items with
  | nil => intro pos s q item hget; simp at hget
  | cons item0 rest ih =>
    intro pos s q item hget
    cases q with
    | zero =>
      obtain ⟨t1, u1, _, _, hat1, hmem1⟩ :=
        attemptLoop_close_free env sbs maxr pos item0.2 maxr 0 s
      obtain ⟨t2, u2, _, _, hat2⟩ :=
        itemLoop_close_free env sbs maxr rest (pos + 1)
          (attemptLoop env sbs maxr pos item0.2 maxr 0 s)
      refine ⟨0, ?_⟩
      simp only [itemLoop, Nat.add_zero]
      rw [hat2, hat1]
      simp only [List.mem_append]
      exact Or.inl (Or.inr (hmem1 hmr))
    | succ q' =>
      simp only [List.get?] at hget
      obtain ⟨a, ha⟩ := ih (pos + 1)
        (attemptLoop env sbs maxr pos item0.2 maxr 0 s) q' item hget
      refine ⟨a, ?_⟩
      have : pos + (q' + 1) = (pos + 1) + q' := by omega
      rw [this]
      simpa [itemLoop] using ha

lemma drain_batchFail (env : WEnv) (s : WState) (hb : s.batch ≠ [])
    (hw : env.saveBatchOk s.nSaveBatch = false) :
    drain env s = Except.error
      { s with events := s.events ++ [WEvent.flushBatchFailed],
               nSaveBatch := s.nSaveBatch + 1 } := by
  cases hbt : s.batch with
  | nil => exact absurd hbt hb
  | cons b bs => simp [drain, saveBatchCall, hbt, hw]

lemma drain_failedFail (env : WEnv) (s : WState) (hb : s.batch = [])
    (hf : s.failed ≠ []) (hw : env.saveFailedOk s.nSaveFailed = false) :
    drain env s = Except.error
      { s with events := s.events ++ [WEvent.writeFailedIndicesFailed],
               nSaveFailed := s.nSaveFailed + 1 } := by
  cases hfl : s.failed with
  | nil => exact absurd hfl hf
  | cons i l => simp [drain, saveFailedIndicesCall, hb, hfl, hw]

lemma drain_error_no_close (env : WEnv) (s : WState) (hc : WEvent.close ∉ s.events) :
    ∀ s2, drain env s = Except.error s2 → WEvent.close ∉ s2.events := by
  intro s2 herr
  cases hbt : s.batch with
  | nil =>
    cases hfl : s.failed with
    | nil => simp [drain, hbt, hfl] at herr
    | cons i l =>
      by_cases hsf : env.saveFailedOk s.nSaveFailed
      · simp [drain, saveFailedIndicesCall, hbt, hfl, hsf] at herr
      · rw [drain_failedFail env s hbt (by simp [hfl])
          (by simpa using hsf)] at herr
        injection herr with herr
        rw [← herr]
        simpa using hc
  | cons b bs =>
    by_cases hsb : env.saveBatchOk s.nSaveBatch
    · cases hfl : s.failed with
      | nil => simp [drain, saveBatchCall, saveFailedIndicesCall, hbt, hfl, hsb] at herr
      | cons i l =>
        by_cases hsf : env.saveFailedOk s.nSaveFailed
        · simp [drain, saveBatchCall, saveFailedIndicesCall, hbt, hfl, hsb, hsf] at herr
        · simp [drain, saveBatchCall, saveFailedIndicesCall, hbt, hfl, hsb, hsf] at herr
          rw [← herr]
          simpa using hc
    · rw [drain_batchFail env s (by simp [hbt]) (by simpa using hsb)] at herr
      injection herr with herr
      rw [← herr]
      simpa using hc

lemma firstSuccessAux_none_of_fail (env : WEnv) (pos : Nat) :
    ∀ r k, (∀ a, k ≤ a → a < k + r → env.proc pos a = none) →
      firstSuccessAux env pos r k = none := by
  intro r
  induction r with
  | zero => intro k _; simp [firstSuccessAux]
  | succ r ih =>
    intro k hall
    have h0 : env.proc pos k = none := hall k (Nat.le_refl k) (by omega)
    simp [firstSuccessAux, h0]
    exact ih (k + 1) (fun a h1 h2 => hall a (by omega) (by omega))

/-- A sequence of offers to the batch accumulator (iterated lines 95-106),
stopping at the first write failure. -/
def offerRun (env : WEnv) (sbs : Nat) : List ProcessedRecord → WState → Bool × WState
  | [], s => (true, s)
  | r :: rest, s =>
    match offer env sbs r s with
    | (true, s1) => offerRun env sbs rest s1
    | (false, s1) => (false, s1)

lemma offerRun_no_flush (env : WEnv) (sbs : Nat) :
    ∀ (rs : List ProcessedRecord) (s : WState), s.batch.length + rs.length < sbs →
      offerRun env sbs rs s = (true, { s with batch := s.batch ++ rs }) := by
  intro rs
  induction rs with
  | nil => intro s _; simp [offerRun]
  | cons r rest ih =>
    intro s hlen
    have hth : ¬(sbs ≤ s.batch.length + 1) := by
      simp only [List.length_cons] at hlen
      omega
    have hoffer : offer env sbs r s = (true, { s with batch := s.batch ++ [r] }) := by
      simp [offer, hth]
    simp only [offerRun, hoffer]
    rw [ih { s with batch := s.batch ++ [r] } (by simp only [List.length_cons,
      List.length_append, List.length_cons] at hlen ⊢; simp; omega)]
    simp

lemma offerRun_flush (env : WEnv) (sbs : Nat) (h : allWritesOk env) :
    ∀ (rs : List ProcessedRecord) (s : WState), rs ≠ [] →
      s.batch.length + rs.length = sbs →
      ∃ s', offerRun env sbs rs s = (true, s') ∧
        s'.batch = [] ∧ s'.failed = [] ∧
        s'.events = s.events ++ ([WEvent.flushBatch (s.batch ++ rs)] ++
          (if s.failed.isEmpty then [] else [WEvent.writeFailedIndices s.failed])) ∧
        s'.processed = s.processed ∧ s'.attempts = s.attempts := by
  intro rs
  induction rs with
  | nil => intro s hne; exact absurd rfl hne
  | cons r rest ih =>
    intro s _ hlen
    cases rest with
    | nil =>
      have hth : sbs ≤ s.batch.length + 1 := by
        simp only [List.length_cons, List.length_nil] at hlen
        omega
      cases hf : s.failed with
      | nil =>
        refine Exists.intro
          { s with batch := [], failed := [],
                   events := s.events ++ [WEvent.flushBatch (s.batch ++ [r])],
                   nSaveBatch := s.nSaveBatch + 1 } ⟨?_, rfl, rfl, ?_, rfl, rfl⟩
        · simp [offerRun, offer, saveBatchCall, saveFailedIndicesCall, hth, h.1, hf]
        · simp [hf]
      | cons i l =>
        refine Exists.intro
          { s with batch := [], failed := [],
                   events := s.events ++ [WEvent.flushBatch (s.batch ++ [r]),
                     WEvent.writeFailedIndices (i :: l)],
                   nSaveBatch := s.nSaveBatch + 1,
                   nSaveFailed := s.nSaveFailed + 1 } ⟨?_, rfl, rfl, ?_, rfl, rfl⟩
        · simp [offerRun, offer, saveBatchCall, saveFailedIndicesCall, hth, h.1, h.2, hf]
        · simp [hf]
    | cons r2 rest2 =>
      have hth : ¬(sbs ≤ s.batch.length + 1) := by
        simp only [List.length_cons] at hlen
        omega
      have hoffer : offer env sbs r s = (true, { s with batch := s.batch ++ [r] }) := by
        simp [offer, hth]
      obtain ⟨s', hrun, h1, h2, h3, h4, h5⟩ :=
        ih { s with batch := s.batch ++ [r] } (by simp)
          (by simp only [List.length_cons] at hlen ⊢; simp; omega)
      refine ⟨s', ?_, h1, h2, ?_, h4, h5⟩
      · simp only [offerRun, hoffer]
        exact hrun
      · simpa using h3

/-- C1.  With reliable storage, an item of the chunk whose conversion
succeeds on some attempt below `max_retries` contributes exactly one to
the shared progress counter — the final counter equals the number of
successful items, which is at most the number of items, so the counter is
bumped once per successful item and never once per attempt — and exactly
one ProcessedRecord carrying that item's dataset index is durably written
to the worker's output. -/
theorem C1_exactly_once_success (env : WEnv) (sbs maxr : Nat)
    (items : List (String × Int)) (p : Nat) (item : String × Int)
    (h : allWritesOk env) (hnd : (items.map Prod.snd).Nodup)
    (hget : items.get? p = some item)
    (hs : (firstSuccess env maxr p).isSome = true) :
    ∃ s', process_and_save_text env sbs maxr items = Except.ok s' ∧
      s'.processed = numSucc env maxr items 0 ∧
      numSucc env maxr items 0 ≤ items.length ∧
      (flushedRecs s'.events).countP (fun r => r.index = item.2) = 1 := by
  obtain ⟨s', hrun, hrecs, _, hproc, _, _⟩ := worker_char env sbs maxr items h
  refine ⟨s', hrun, hproc, numSucc_le env maxr items 0, ?_⟩
  rw [hrecs]
  have := expRecords_countP_one env maxr items 0 p item hnd hget
    (by simpa using hs)
  simpa using this

/-- C1 witness: a two-item chunk where every attempt succeeds. -/
theorem C1_exactly_once_success_witness :
    ∃ s', process_and_save_text
        ⟨fun _ _ => some ("a", "t"), fun _ => true, fun _ => true⟩ 2 3
        [("x", 5), ("y", 7)] = Except.ok s' ∧
      s'.processed = numSucc
        ⟨fun _ _ => some ("a", "t"), fun _ => true, fun _ => true⟩ 3
        [("x", 5), ("y", 7)] 0 ∧
      numSucc ⟨fun _ _ => some ("a", "t"), fun _ => true, fun _ => true⟩ 3
        [("x", 5), ("y", 7)] 0 ≤ ([("x", 5), ("y", 7)] : List (String × Int)).length ∧
      (flushedRecs s'.events).countP (fun r => r.index = (5 : Int)) = 1 :=
  C1_exactly_once_success ⟨fun _ _ => some ("a", "t"), fun _ => true, fun _ => true⟩
    2 3 [("x", 5), ("y", 7)] 0 ("x", 5)
    ⟨fun _ => rfl, fun _ => rfl⟩ (by decide) rfl (by decide)

/-- C3.  With reliable storage and `max_retries ≥ 1`, an item whose
conversion fails on every attempt is attempted exactly `max_retries`
times, its index is persisted to the failed-index output, its index never
appears among the durably written records, and the progress counter does
not count it (the final counter equals the number of successful items and
this item is not one of them). -/
theorem C3_exhausted_retries (env : WEnv) (sbs maxr : Nat)
    (items : List (String × Int)) (p : Nat) (item : String × Int)
    (h : allWritesOk env) (hmr : 1 ≤ maxr) (hnd : (items.map Prod.snd).Nodup)
    (hget : items.get? p = some item)
    (hf : ∀ k, k < maxr → env.proc p k = none) :
    ∃ s', process_and_save_text env sbs maxr items = Except.ok s' ∧
      s'.attempts.filter (fun x => x.1 = p) =
        (List.range maxr).map (fun a => (p, a)) ∧
      item.2 ∈ flushedFailed s'.events ∧
      (∀ r ∈ flushedRecs s'.events, r.index ≠ item.2) ∧
      s'.processed = numSucc env maxr items 0 ∧
      (firstSuccess env maxr p).isSome = false := by
  have hfs : firstSuccess env maxr p = none :=
    firstSuccessAux_none_of_fail env p maxr 0 (fun a _ h2 => hf a (by omega))
  obtain ⟨s', hrun, hrecs, hfails, hproc, hatt, _⟩ := worker_char env sbs maxr items h
  refine ⟨s', hrun, ?_, ?_, ?_, hproc, by simp [hfs]⟩
  · rw [hatt]
    have := expAttempts_filter env maxr items 0 p item hget
    simpa [nAttempts, hfs] using this
  · rw [hfails]
    exact expFailed_mem env maxr items 0 p item hget (by simpa using hfs) (by omega)
  · rw [hrecs]
    intro r hr
    exact expRecords_fail_ne env maxr items 0 p item hnd hget
      (by simpa using hfs) r hr

/-- C3 witness: a single item whose three attempts all fail. -/
theorem C3_exhausted_retries_witness :
    ∃ s', process_and_save_text
        ⟨fun _ _ => none, fun _ => true, fun _ => true⟩ 4 3
        [("x", 5)] = Except.ok s' ∧
      s'.attempts.filter (fun x => x.1 = 0) =
        (List.range 3).map (fun a => (0, a)) ∧
      (5 : Int) ∈ flushedFailed s'.events ∧
      (∀ r ∈ flushedRecs s'.events, r.index ≠ (5 : Int)) ∧
      s'.processed = numSucc ⟨fun _ _ => none, fun _ => true, fun _ => true⟩ 3
        [("x", 5)] 0 ∧
      (firstSuccess ⟨fun _ _ => none, fun _ => true, fun _ => true⟩ 3 0).isSome
        = false :=
  C3_exhausted_retries ⟨fun _ _ => none, fun _ => true, fun _ => true⟩ 4 3
    [("x", 5)] 0 ("x", 5) ⟨fun _ => rfl, fun _ => rfl⟩ (by decide) (by decide)
    rfl (fun _ _ => rfl)

/-- C4.  With reliable storage and a batch that starts empty, offering
exactly `save_batch_size` records triggers exactly one flush, carrying all
the offered records, and resets the in-memory batch; offering
`save_batch_size - 1` records triggers no flush at all; and the flush also
persists the accumulated failed-index list exactly when it is non-empty,
clearing it either way. -/
theorem C4_batch_flush_threshold (env : WEnv) (sbs : Nat) (s : WState)
    (rs : List ProcessedRecord) (h : allWritesOk env) (hsbs : 1 ≤ sbs)
    (hb : s.batch = []) :
    (rs.length = sbs →
      ∃ s', offerRun env sbs rs s = (true, s') ∧
        s'.batch = [] ∧ s'.failed = [] ∧
        s'.events = s.events ++ ([WEvent.flushBatch rs] ++
          (if s.failed.isEmpty then [] else [WEvent.writeFailedIndices s.failed]))) ∧
    (rs.length = sbs - 1 →
      offerRun env sbs rs s = (true, { s with batch := rs })) := by
  constructor
  · intro hlen
    have hne : rs ≠ [] := by
      intro h0
      rw [h0] at hlen
      simp at hlen
      omega
    obtain ⟨s', hrun, h1, h2, h3, _, _⟩ := offerRun_flush env sbs h rs s hne
      (by rw [hb]; simpa using hlen)
    refine ⟨s', hrun, h1, h2, ?_⟩
    rw [h3, hb]
    simp
  · intro hlen
    rw [offerRun_no_flush env sbs rs s (by rw [hb]; simp; omega)]
    rw [hb]
    simp

/-- C4 witness: threshold 2, with a pending failed index. -/
theorem C4_batch_flush_threshold_witness :
    (([(⟨5, "a", "t"⟩ : ProcessedRecord), ⟨7, "b", "u"⟩] : List ProcessedRecord).length = 2 →
      ∃ s', offerRun ⟨fun _ _ => none, fun _ => true, fun _ => true⟩ 2
          [⟨5, "a", "t"⟩, ⟨7, "b", "u"⟩] { initWState with failed := [9] } = (true, s') ∧
        s'.batch = [] ∧ s'.failed = [] ∧
        s'.events = ({ initWState with failed := [9] } : WState).events ++
          ([WEvent.flushBatch [⟨5, "a", "t"⟩, ⟨7, "b", "u"⟩]] ++
           (if ({ initWState with failed := [9] } : WState).failed.isEmpty then []
            else [WEvent.writeFailedIndices
              ({ initWState with failed := [9] } : WState).failed]))) ∧
    (([(⟨5, "a", "t"⟩ : ProcessedRecord), ⟨7, "b", "u"⟩] : List ProcessedRecord).length = 2 - 1 →
      offerRun ⟨fun _ _ => none, fun _ => true, fun _ => true⟩ 2
        [⟨5, "a", "t"⟩, ⟨7, "b", "u"⟩] { initWState with failed := [9] } =
        (true, { ({ initWState with failed := [9] } : WState) with
          batch := [⟨5, "a", "t"⟩, ⟨7, "b", "u"⟩] })) :=
  C4_batch_flush_threshold ⟨fun _ _ => none, fun _ => true, fun _ => true⟩ 2
    { initWState with failed := [9] } [⟨5, "a", "t"⟩, ⟨7, "b", "u"⟩]
    ⟨fun _ => rfl, fun _ => rfl⟩ (by decide) rfl

/-- C5.  With reliable storage, a worker that ends its chunk with a
non-empty residual batch or failed-index list persists exactly that
residual data, each exactly once, and then closes the writer: the final
event trace extends the loop's trace by precisely one flush of the
residual batch (if non-empty), one write of the residual failed-index
list (if non-empty), and the close, in that order. -/
theorem C5_drain_on_exit (env : WEnv) (sbs maxr : Nat)
    (items : List (String × Int)) (s1 : WState) (h : allWritesOk env)
    (hloop : itemLoop env sbs maxr items 0 initWState = s1)
    (hres : s1.batch ≠ [] ∨ s1.failed ≠ []) :
    ∃ s', process_and_save_text env sbs maxr items = Except.ok s' ∧
      s'.events = s1.events ++
        ((if s1.batch.isEmpty then [] else [WEvent.flushBatch s1.batch]) ++
         (if s1.failed.isEmpty then [] else [WEvent.writeFailedIndices s1.failed]) ++
         [WEvent.close]) ∧
      s'.events.getLast? = some WEvent.close := by
  obtain ⟨s2, hdrain, he2, _, _, _, _⟩ := drain_ok_char env s1 h
  refine ⟨s2, ?_, he2, ?_⟩
  · rw [process_and_save_text, hloop]
    exact hdrain
  · rw [he2]
    rw [show s1.events ++
        ((if s1.batch.isEmpty then [] else [WEvent.flushBatch s1.batch]) ++
         (if s1.failed.isEmpty then [] else [WEvent.writeFailedIndices s1.failed]) ++
         [WEvent.close]) =
        (s1.events ++
         ((if s1.batch.isEmpty then [] else [WEvent.flushBatch s1.batch]) ++
          (if s1.failed.isEmpty then [] else [WEvent.writeFailedIndices s1.failed]))) ++
        [WEvent.close] by simp]
    exact List.getLast?_concat _

/-- C5 witness: one always-successful item, batch size larger than the
chunk, so the record is still in the residual batch at the drain. -/
theorem C5_drain_on_exit_witness :
    ∃ s', process_and_save_text
        ⟨fun _ _ => some ("a", "t"), fun _ => true, fun _ => true⟩ 5 1
        [("x", 5)] = Except.ok s' ∧
      s'.events = (itemLoop ⟨fun _ _ => some ("a", "t"), fun _ => true, fun _ => true⟩
          5 1 [("x", 5)] 0 initWState).events ++
        ((if (itemLoop ⟨fun _ _ => some ("a", "t"), fun _ => true, fun _ => true⟩
            5 1 [("x", 5)] 0 initWState).batch.isEmpty then []
          else [WEvent.flushBatch (itemLoop
            ⟨fun _ _ => some ("a", "t"), fun _ => true, fun _ => true⟩
            5 1 [("x", 5)] 0 initWState).batch]) ++
         (if (itemLoop ⟨fun _ _ => some ("a", "t"), fun _ => true, fun _ => true⟩
            5 1 [("x", 5)] 0 initWState).failed.isEmpty then []
          else [WEvent.writeFailedIndices (itemLoop
            ⟨fun _ _ => some ("a", "t"), fun _ => true, fun _ => true⟩
            5 1 [("x", 5)] 0 initWState).failed]) ++
         [WEvent.close]) ∧
      s'.events.getLast? = some WEvent.close :=
  C5_drain_on_exit ⟨fun _ _ => some ("a", "t"), fun _ => true, fun _ => true⟩ 5 1
    [("x", 5)] _ ⟨fun _ => rfl, fun _ => rfl⟩ rfl (Or.inl (by decide))

/-- Events of a worker run, whether it ended normally or in an exception. -/
def wRunEvents (e : Except WState WState) : List WEvent :=
  match e with
  | Except.ok s => s.events
  | Except.error s => s.events

/-- True when the worker run ended normally. -/
def wRunOk (e : Except WState WState) : Bool :=
  match e with
  | Except.ok _ => true
  | Except.error _ => false

/-- C2 counterexample.  With `save_batch_size = 1`, `max_retries = 2`, a
first `save_batch` call that raises and all later write calls succeeding,
the worker does NOT stop: the flush failure is caught by the per-item
`except` handler (the item is even re-converted and its record duplicated
in the next flush), the second item is still processed and flushed, and
the run ends normally with `writer.close()`.  This refutes the claim that
every batch-flush failure is fatal to the owning worker. -/
theorem C2_counterexample :
    WEvent.flushBatchFailed ∈ wRunEvents (process_and_save_text
      ⟨fun _ _ => some ("a", "t"), fun n => decide (n ≠ 0), fun _ => true⟩ 1 2
      [("x", 5), ("y", 7)]) ∧
    WEvent.flushBatch [⟨5, "a", "t"⟩, ⟨5, "a", "t"⟩] ∈ wRunEvents (process_and_save_text
      ⟨fun _ _ => some ("a", "t"), fun n => decide (n ≠ 0), fun _ => true⟩ 1 2
      [("x", 5), ("y", 7)]) ∧
    WEvent.flushBatch [⟨7, "a", "t"⟩] ∈ wRunEvents (process_and_save_text
      ⟨fun _ _ => some ("a", "t"), fun n => decide (n ≠ 0), fun _ => true⟩ 1 2
      [("x", 5), ("y", 7)]) ∧
    WEvent.close ∈ wRunEvents (process_and_save_text
      ⟨fun _ _ => some ("a", "t"), fun n => decide (n ≠ 0), fun _ => true⟩ 1 2
      [("x", 5), ("y", 7)]) ∧
    wRunOk (process_and_save_text
      ⟨fun _ _ => some ("a", "t"), fun n => decide (n ≠ 0), fun _ => true⟩ 1 2
      [("x", 5), ("y", 7)]) = true := by
  decide

/-- C2 (amended).  A failure of the batch flush or of the failed-index
write in the final drain phase is fatal to the owning worker and is not
retried: the run ends in an exception whose trace ends with that single
failed write call.  A write failure inside the per-item retry loop,
however, is caught by the per-item `except` handler as a failed attempt:
whatever the write-failure pattern, the worker keeps going and every item
of the chunk is still attempted. -/
theorem C2_write_failure_fatality (env : WEnv) (sbs maxr : Nat)
    (items : List (String × Int)) (s1 : WState)
    (hloop : itemLoop env sbs maxr items 0 initWState = s1) :
    (s1.batch ≠ [] → env.saveBatchOk s1.nSaveBatch = false →
      process_and_save_text env sbs maxr items = Except.error
        { s1 with events := s1.events ++ [WEvent.flushBatchFailed],
                  nSaveBatch := s1.nSaveBatch + 1 }) ∧
    (s1.batch = [] → s1.failed ≠ [] → env.saveFailedOk s1.nSaveFailed = false →
      process_and_save_text env sbs maxr items = Except.error
        { s1 with events := s1.events ++ [WEvent.writeFailedIndicesFailed],
                  nSaveFailed := s1.nSaveFailed + 1 }) ∧
    (maxr ≠ 0 → ∀ q item, items.get? q = some item →
      ∃ a, (q, a) ∈ s1.attempts) := by
  refine ⟨?_, ?_, ?_⟩
  · intro hb hw
    rw [process_and_save_text, hloop]
    exact drain_batchFail env s1 hb hw
  · intro hb hf hw
    rw [process_and_save_text, hloop]
    exact drain_failedFail env s1 hb hf hw
  · intro hmr q item hget
    obtain ⟨a, ha⟩ :=
      itemLoop_attempted env sbs maxr hmr items 0 initWState q item hget
    rw [hloop] at ha
    exact ⟨a, by simpa using ha⟩

/-- C2 witness: the drain-phase flush of the residual record fails, and
the worker run ends in exactly that error. -/
theorem C2_write_failure_fatality_witness :
    process_and_save_text ⟨fun _ _ => some ("a", "t"), fun _ => false, fun _ => true⟩
        10 1 [("x", 5)] =
      Except.error ⟨[⟨5, "a", "t"⟩], [], [WEvent.flushBatchFailed], 1, 1, 0, [(0, 0)]⟩ := by
  have h := C2_write_failure_fatality
    ⟨fun _ _ => some ("a", "t"), fun _ => false, fun _ => true⟩ 10 1 [("x", 5)]
    (itemLoop ⟨fun _ _ => some ("a", "t"), fun _ => false, fun _ => true⟩ 10 1
      [("x", 5)] 0 initWState) rfl
  rw [h.1 (by decide) rfl]
  rfl

/-- C10.  Exceptions are caught only inside the per-item retry loop: the
item loop itself always runs to completion, a batch-flush or failed-index
write failure in the final drain phase propagates out of
`process_and_save_text` as an error result, and on every error result
`writer.close()` was never invoked — no close event is in the trace. -/
theorem C10_drain_raise_propagates (env : WEnv) (sbs maxr : Nat)
    (items : List (String × Int)) (s1 : WState)
    (hloop : itemLoop env sbs maxr items 0 initWState = s1) :
    (s1.batch ≠ [] → env.saveBatchOk s1.nSaveBatch = false →
      ∃ s2, process_and_save_text env sbs maxr items = Except.error s2) ∧
    (s1.batch = [] → s1.failed ≠ [] → env.saveFailedOk s1.nSaveFailed = false →
      ∃ s2, process_and_save_text env sbs maxr items = Except.error s2) ∧
    (∀ s2, process_and_save_text env sbs maxr items = Except.error s2 →
      WEvent.close ∉ s2.events) := by
  have hc1 : WEvent.close ∉ s1.events := by
    obtain ⟨t, u, ht, hct, _⟩ := itemLoop_close_free env sbs maxr items 0 initWState
    rw [hloop] at ht
    rw [ht]
    simpa [initWState] using hct
  refine ⟨?_, ?_, ?_⟩
  · intro hb hw
    have hd := drain_batchFail env s1 hb hw
    rw [process_and_save_text, hloop]
    exact ⟨_, hd⟩
  · intro hb hf hw
    have hd := drain_failedFail env s1 hb hf hw
    rw [process_and_save_text, hloop]
    exact ⟨_, hd⟩
  · intro s2 herr
    rw [process_and_save_text, hloop] at herr
    exact drain_error_no_close env s1 hc1 s2 herr

/-- C10 witness: the item fails every attempt, so the drain must write the
failed-index list; that write fails and the run errors without a close. -/
theorem C10_drain_raise_propagates_witness :
    (∃ s2, process_and_save_text ⟨fun _ _ => none, fun _ => true, fun _ => false⟩
        10 1 [("x", 5)] = Except.error s2) ∧
    (∀ s2, process_and_save_text ⟨fun _ _ => none, fun _ => true, fun _ => false⟩
        10 1 [("x", 5)] = Except.error s2 → WEvent.close ∉ s2.events) := by
  have h := C10_drain_raise_propagates
    ⟨fun _ _ => none, fun _ => true, fun _ => false⟩ 10 1 [("x", 5)]
    (itemLoop ⟨fun _ _ => none, fun _ => true, fun _ => false⟩ 10 1
      [("x", 5)] 0 initWState) rfl
  exact ⟨h.2.1 rfl (by decide) rfl, h.2.2⟩

/-- Errors `run_pipeline` can raise before or while launching workers.
`keyErr` is the Python `KeyError` raised by `config[key]` during the
configuration unpacking — the ConfigurationError of the spec's taxonomy.
`attrErr` is the `AttributeError` raised by
`getattr(importlib.import_module("speakers"), speaker)` for an unknown
speaker key.  `chunkerErr` is the spec-modelled ConfigurationError of the
Chunker for a non-positive worker count. -/
inductive PipeErr where
  | keyErr (key : String)
  | attrErr (speaker : String)
  | chunkerErr
deriving Repr, DecidableEq

/-- The processing configuration dictionary, with `none` for an absent
key.  Only the eight keys read by `run_pipeline` are modelled. -/
structure PipelineConfig where
  devices : Option (List String)
  num_procs_per_device : Option Nat
  save_dir : Option String
  save_batch_size : Option Nat
  sample_rate : Option Nat
  max_retries : Option Nat
  speaker : Option String
  format : Option String

/-- The configuration after the unpacking tuple-assignment succeeded. -/
structure UnpackedConfig where
  devices : List String
  num_procs_per_device : Nat
  save_dir : String
  save_batch_size : Nat
  sample_rate : Nat
  max_retries : Nat
  speaker : String
  format : String

/-- One `config[key]` lookup: raises `KeyError(key)` when absent. -/
def req (v : Option α) (key : String) : Except PipeErr α :=
  match v with
  | none => Except.error (PipeErr.keyErr key)
  | some x => Except.ok x

/-- The unpacking generator of lines 146-167: the eight keys are read in
the listed order, and the first absent one raises `KeyError`. -/
def unpackConfig (c : PipelineConfig) : Except PipeErr UnpackedConfig := do
  let devices ← req c.devices "devices"
  let num_procs_per_device ← req c.num_procs_per_device "num_procs_per_device"
  let save_dir ← req c.save_dir "save_dir"
  let save_batch_size ← req c.save_batch_size "save_batch_size"
  let sample_rate ← req c.sample_rate "sample_rate"
  let max_retries ← req c.max_retries "max_retries"
  let speaker ← req c.speaker "speaker"
  let format ← req c.format "format"
  pure ⟨devices, num_procs_per_device, save_dir, save_batch_size, sample_rate,
    max_retries, speaker, format⟩

/-- Modelled from the spec: `create_non_overlapping_chunks` (in
`utils.py`, not under src/) splits the dataset into `w` chunks whose sizes
differ by at most one, preserving order and covering the dataset; here the
first chunk takes the ceiling share and the rest is split recursively. -/
def splitBalanced : List α → Nat → List (List α)
  | _, 0 => []
  | xs, Nat.succ w =>
    (xs.take ((xs.length + w) / (w + 1))) ::
      splitBalanced (xs.drop ((xs.length + w) / (w + 1))) w

/-- Modelled from the spec: the Chunker produces exactly `w` chunks and
fails with a ConfigurationError when the worker count is not positive. -/
def create_non_overlapping_chunks (xs : List α) (w : Nat) :
    Except PipeErr (List (List α)) :=
  if w = 0 then Except.error PipeErr.chunkerErr
  else Except.ok (splitBalanced xs w)

lemma splitBalanced_length :
    ∀ (w : Nat) (ys : List α), (splitBalanced ys w).length = w := by
  intro w
  induction w with
  | zero => intro ys; rfl
  | succ w ih => intro ys; simp [splitBalanced, ih]

/-- Observable actions of the orchestrator, in order. -/
inductive OrchEvent where
  /-- The `os.makedirs(save_dir, exist_ok=True)` call. -/
  | makedirs (dir : String)
  /-- `Process(target=process_and_save_text, args=(chunk, device, i, ...))`
  started for chunk `i` on `device`. -/
  | startWorker (i : Nat) (device : String) (chunk : List (String × Int))
  /-- One `logger.info("Processed: %s", processed_count.value)` poll. -/
  | logProgress
  /-- The `time.sleep(60)` between polls. -/
  | sleep60
  /-- The `p.join()` on worker `i`. -/
  | joinWorker (i : Nat)
  /-- The final-count log after all joins. -/
  | logFinal
  /-- The `upload_folder_to_s3` handoff performed by `main`. -/
  | uploadToS3
deriving Repr, DecidableEq

/-- The `while any(p.is_alive())` polling loop (lines 204-208), with the
liveness of the worker pool at the t-th poll abstracted by the oracle
`alive`, and a fuel bound on the number of polls considered. -/
def waitLoop (alive : Nat → Bool) : Nat → Nat → List OrchEvent
  | 0, _ => []
  | Nat.succ fuel, t =>
    if alive t then
      OrchEvent.logProgress :: OrchEvent.sleep60 :: waitLoop alive fuel (t + 1)
    else []

/-- The shape of a completed polling phase: `n` rounds of one progress log
followed by one sixty-unit sleep. -/
def pollSeg : Nat → List OrchEvent
  | 0 => []
  | Nat.succ n => OrchEvent.logProgress :: OrchEvent.sleep60 :: pollSeg n

/-- The body of `run_pipeline` (lines 144-216): unpack the configuration,
resolve the speaker from the `speakers` module (abstracted by the
membership oracle `speakers`), create the save directory, chunk the
dataset for `len(devices) * num_procs_per_device` workers, start one
worker process per chunk with device `devices[i % len(devices)]`, poll
liveness while logging progress, join all workers and log the final
count.  The result is the event trace together with the raised error, if
any. -/
def run_pipeline (speakers : String → Bool) (alive : Nat → Bool) (fuel : Nat)
    (dataset : List (String × Int)) (config : PipelineConfig) :
    List OrchEvent × Option PipeErr :=
  match unpackConfig config with
  | Except.error e => ([], some e)
  | Except.ok u =>
    if speakers u.speaker then
      match create_non_overlapping_chunks dataset
          (u.devices.length * u.num_procs_per_device) with
      | Except.error e => ([OrchEvent.makedirs u.save_dir], some e)
      | Except.ok chunks =>
        (OrchEvent.makedirs u.save_dir ::
          ((List.range chunks.length).map (fun i =>
            OrchEvent.startWorker i (u.devices.getD (i % u.devices.length) "")
              (chunks.getD i [])) ++
           waitLoop alive fuel 0 ++
           (List.range chunks.length).map OrchEvent.joinWorker ++
           [OrchEvent.logFinal]), none)
    else ([], some (PipeErr.attrErr u.speaker))

/-- The tail of `main` (lines 253-262): run the pipeline, then invoke the
upload handoff exactly when `config["upload_to_s3"]` is set; an exception
of `run_pipeline` propagates and skips the upload. -/
def mainRun (speakers : String → Bool) (alive : Nat → Bool) (fuel : Nat)
    (dataset : List (String × Int)) (config : PipelineConfig)
    (upload_to_s3 : Bool) : List OrchEvent × Option PipeErr :=
  match run_pipeline speakers alive fuel dataset config with
  | (evs, some e) => (evs, some e)
  | (evs, none) =>
    (evs ++ (if upload_to_s3 then [OrchEvent.uploadToS3] else []), none)

/-- The worker launches recorded in a trace: `(i, device, chunk)`. -/
def startsOf : List OrchEvent → List (Nat × String × List (String × Int))
  | [] => []
  | OrchEvent.startWorker i d ch :: rest => (i, d, ch) :: startsOf rest
  | OrchEvent.makedirs _ :: rest => startsOf rest
  | OrchEvent.logProgress :: rest => startsOf rest
  | OrchEvent.sleep60 :: rest => startsOf rest
  | OrchEvent.joinWorker _ :: rest => startsOf rest
  | OrchEvent.logFinal :: rest => startsOf rest
  | OrchEvent.uploadToS3 :: rest => startsOf rest

/-- Number of upload handoffs in a trace. -/
def countUpload : List OrchEvent → Nat
  | [] => 0
  | OrchEvent.uploadToS3 :: rest => countUpload rest + 1
  | OrchEvent.makedirs _ :: rest => countUpload rest
  | OrchEvent.startWorker _ _ _ :: rest => countUpload rest
  | OrchEvent.logProgress :: rest => countUpload rest
  | OrchEvent.sleep60 :: rest => countUpload rest
  | OrchEvent.joinWorker _ :: rest => countUpload rest
  | OrchEvent.logFinal :: rest => countUpload rest

lemma startsOf_append (a b : List OrchEvent) :
    startsOf (a ++ b) = startsOf a ++ startsOf b := by
  induction a with
  | nil => rfl
  | cons e rest ih => cases e <;> simp [startsOf, ih]

lemma startsOf_waitLoop (alive : Nat → Bool) :
    ∀ fuel t, startsOf (waitLoop alive fuel t) = [] := by
  intro fuel
  induction fuel with
  | zero => intro t; rfl
  | succ f ih =>
    intro t
    by_cases h : alive t
    · simp [waitLoop, h, startsOf, ih]
    · simp [waitLoop, h, startsOf]

lemma startsOf_joinMap : ∀ l : List Nat,
    startsOf (l.map OrchEvent.joinWorker) = [] := by
  intro l
  induction l with
  | nil => rfl
  | cons i rest ih => simp [startsOf, ih]

lemma startsOf_startMap (f : Nat → String) (g : Nat → List (String × Int)) :
    ∀ l : List Nat,
      startsOf (l.map (fun i => OrchEvent.startWorker i (f i) (g i))) =
        l.map (fun i => (i, f i, g i)) := by
  intro l
  induction l with
  | nil => rfl
  | cons i rest ih => simp [startsOf, ih]

lemma countUpload_append (a b : List OrchEvent) :
    countUpload (a ++ b) = countUpload a + countUpload b := by
  induction a with
  | nil => simp [countUpload]
  | cons e rest ih => cases e <;> simp [countUpload, ih] <;> omega

lemma countUpload_pollSeg : ∀ n, countUpload (pollSeg n) = 0 := by
  intro n
  induction n with
  | zero => rfl
  | succ n ih => simp [pollSeg, countUpload, ih]

lemma countUpload_joinMap : ∀ l : List Nat,
    countUpload (l.map OrchEvent.joinWorker) = 0 := by
  intro l
  induction l with
  | nil => rfl
  | cons i rest ih => simp [countUpload, ih]

lemma countUpload_startMap (f : Nat → String) (g : Nat → List (String × Int)) :
    ∀ l : List Nat,
      countUpload (l.map (fun i => OrchEvent.startWorker i (f i) (g i))) = 0 := by
  intro l
  induction l with
  | nil => rfl
  | cons i rest ih => simp [countUpload, ih]

lemma waitLoop_pollSeg (alive : Nat → Bool) :
    ∀ fuel t, (∃ k, k < fuel ∧ alive (t + k) = false) →
      ∃ n, waitLoop alive fuel t = pollSeg n := by
  intro fuel
  induction fuel with
  | zero => intro t h; obtain ⟨k, hk, _⟩ := h; omega
  | succ f ih =>
    intro t h
    obtain ⟨k, hk, hak⟩ := h
    by_cases ha : alive t
    · have hnext : ∃ k', k' < f ∧ alive (t + 1 + k') = false := by
        cases k with
        | zero =>
          rw [Nat.add_zero] at hak
          rw [hak] at ha
          simp at ha
        | succ k' =>
          refine ⟨k', by omega, ?_⟩
          have he : t + 1 + k' = t + (k' + 1) := by omega
          rw [he]
          exact hak
      obtain ⟨n, hn⟩ := ih (t + 1) hnext
      exact ⟨n + 1, by simp [waitLoop, ha, hn, pollSeg]⟩
    · exact ⟨0, by simp [waitLoop, ha, pollSeg]⟩

/-- The event trace and outcome of a successful `run_pipeline`. -/
lemma run_pipeline_ok (speakers : String → Bool) (alive : Nat → Bool)
    (fuel : Nat) (dataset : List (String × Int)) (config : PipelineConfig)
    (u : UnpackedConfig) (hu : unpackConfig config = Except.ok u)
    (hspk : speakers u.speaker = true)
    (hW : u.devices.length * u.num_procs_per_device ≠ 0) :
    run_pipeline speakers alive fuel dataset config =
      (OrchEvent.makedirs u.save_dir ::
        ((List.range (splitBalanced dataset
            (u.devices.length * u.num_procs_per_device)).length).map (fun i =>
          OrchEvent.startWorker i (u.devices.getD (i % u.devices.length) "")
            ((splitBalanced dataset
              (u.devices.length * u.num_procs_per_device)).getD i [])) ++
         waitLoop alive fuel 0 ++
         (List.range (splitBalanced dataset
           (u.devices.length * u.num_procs_per_device)).length).map
             OrchEvent.joinWorker ++
         [OrchEvent.logFinal]), none) := by
  have hchunks : create_non_overlapping_chunks dataset
      (u.devices.length * u.num_procs_per_device) =
      Except.ok (splitBalanced dataset
        (u.devices.length * u.num_procs_per_device)) := by
    simp [create_non_overlapping_chunks, hW]
  simp [run_pipeline, hu, hspk, hchunks]

lemma startsOf_makedirs (d : String) (l : List OrchEvent) :
    startsOf (OrchEvent.makedirs d :: l) = startsOf l := rfl

lemma countUpload_makedirs (d : String) (l : List OrchEvent) :
    countUpload (OrchEvent.makedirs d :: l) = countUpload l := rfl

/-- C6.  With a complete configuration, a resolvable speaker, and at
least one device and one process per device, the orchestrator requests
exactly `W = len(devices) * num_procs_per_device` chunks from the
Chunker, obtains exactly `W` of them, finishes without error, and its
launch trace starts exactly one worker per chunk, worker `i` carrying
chunk `i` and device `devices[i % len(devices)]`. -/
theorem C6_worker_launch (speakers : String → Bool) (alive : Nat → Bool)
    (fuel : Nat) (dataset : List (String × Int)) (config : PipelineConfig)
    (u : UnpackedConfig) (hu : unpackConfig config = Except.ok u)
    (hspk : speakers u.speaker = true)
    (hd : u.devices.length ≠ 0) (hp : u.num_procs_per_device ≠ 0) :
    ∃ chunks, create_non_overlapping_chunks dataset
        (u.devices.length * u.num_procs_per_device) = Except.ok chunks ∧
      chunks.length = u.devices.length * u.num_procs_per_device ∧
      (run_pipeline speakers alive fuel dataset config).2 = none ∧
      startsOf (run_pipeline speakers alive fuel dataset config).1 =
        (List.range (u.devices.length * u.num_procs_per_device)).map
          (fun i => (i, u.devices.getD (i % u.devices.length) "",
            chunks.getD i [])) := by
  have hW : u.devices.length * u.num_procs_per_device ≠ 0 :=
    Nat.mul_ne_zero hd hp
  have hchunks : create_non_overlapping_chunks dataset
      (u.devices.length * u.num_procs_per_device) =
      Except.ok (splitBalanced dataset
        (u.devices.length * u.num_procs_per_device)) := by
    simp [create_non_overlapping_chunks, hW]
  have hlen : (splitBalanced dataset
      (u.devices.length * u.num_procs_per_device)).length =
      u.devices.length * u.num_procs_per_device :=
    splitBalanced_length (u.devices.length * u.num_procs_per_device) dataset
  have hrp := run_pipeline_ok speakers alive fuel dataset config u hu hspk hW
  refine ⟨splitBalanced dataset (u.devices.length * u.num_procs_per_device),
    hchunks, hlen, ?_, ?_⟩
  · rw [hrp]
  · have hrp1 : (run_pipeline speakers alive fuel dataset config).1 =
        OrchEvent.makedirs u.save_dir ::
        ((List.range (splitBalanced dataset
            (u.devices.length * u.num_procs_per_device)).length).map (fun i =>
          OrchEvent.startWorker i (u.devices.getD (i % u.devices.length) "")
            ((splitBalanced dataset
              (u.devices.length * u.num_procs_per_device)).getD i [])) ++
         waitLoop alive fuel 0 ++
         (List.range (splitBalanced dataset
           (u.devices.length * u.num_procs_per_device)).length).map
             OrchEvent.joinWorker ++
         [OrchEvent.logFinal]) := by
      rw [hrp]
    rw [hrp1]
    rw [startsOf_makedirs, startsOf_append, startsOf_append, startsOf_append]
    rw [startsOf_waitLoop, startsOf_joinMap]
    rw [startsOf_startMap (fun i => u.devices.getD (i % u.devices.length) "")
      (fun i => (splitBalanced dataset
        (u.devices.length * u.num_procs_per_device)).getD i [])]
    simp [startsOf, hlen]

/-- C6 witness: two devices, two processes per device, a three-item
dataset. -/
theorem C6_worker_launch_witness :
    ∃ chunks, create_non_overlapping_chunks [("a", 0), ("b", 1), ("c", 2)]
        ((["d0", "d1"] : List String).length * 2) = Except.ok chunks ∧
      chunks.length = (["d0", "d1"] : List String).length * 2 ∧
      (run_pipeline (fun _ => true) (fun _ => false) 1 [("a", 0), ("b", 1), ("c", 2)]
        ⟨some ["d0", "d1"], some 2, some "out", some 3, some 16000, some 4,
         some "bob", some "wav"⟩).2 = none ∧
      startsOf (run_pipeline (fun _ => true) (fun _ => false) 1
        [("a", 0), ("b", 1), ("c", 2)]
        ⟨some ["d0", "d1"], some 2, some "out", some 3, some 16000, some 4,
         some "bob", some "wav"⟩).1 =
        (List.range ((["d0", "d1"] : List String).length * 2)).map
          (fun i => (i, (["d0", "d1"] : List String).getD (i % (["d0", "d1"] : List String).length) "",
            chunks.getD i [])) :=
  C6_worker_launch (fun _ => true) (fun _ => false) 1 [("a", 0), ("b", 1), ("c", 2)]
    ⟨some ["d0", "d1"], some 2, some "out", some 3, some 16000, some 4,
     some "bob", some "wav"⟩
    ⟨["d0", "d1"], 2, "out", 3, 16000, 4, "bob", "wav"⟩
    rfl rfl (by decide) (by decide)

/-- C7.  A configuration missing any of the eight required keys makes
`run_pipeline` raise the Python `KeyError` — the spec's
ConfigurationError — during the unpacking tuple-assignment, before any
observable orchestrator action: the event trace is empty, so no save
directory is created and no worker process is launched. -/
theorem C7_missing_key (speakers : String → Bool) (alive : Nat → Bool)
    (fuel : Nat) (dataset : List (String × Int)) (config : PipelineConfig)
    (hmiss : config.devices = none ∨ config.num_procs_per_device = none ∨
      config.save_dir = none ∨ config.save_batch_size = none ∨
      config.sample_rate = none ∨ config.max_retries = none ∨
      config.speaker = none ∨ config.format = none) :
    ∃ k, run_pipeline speakers alive fuel dataset config =
      ([], some (PipeErr.keyErr k)) := by
  obtain ⟨d, np, sd, sbs, sr, mr, sp, fm⟩ := config
  cases d with
  | none => exact ⟨"devices", rfl⟩
  | some d =>
    cases np with
    | none => exact ⟨"num_procs_per_device", rfl⟩
    | some np =>
      cases sd with
      | none => exact ⟨"save_dir", rfl⟩
      | some sd =>
        cases sbs with
        | none => exact ⟨"save_batch_size", rfl⟩
        | some sbs =>
          cases sr with
          | none => exact ⟨"sample_rate", rfl⟩
          | some sr =>
            cases mr with
            | none => exact ⟨"max_retries", rfl⟩
            | some mr =>
              cases sp with
              | none => exact ⟨"speaker", rfl⟩
              | some sp =>
                cases fm with
                | none => exact ⟨"format", rfl⟩
                | some fm => simp at hmiss

/-- C7 witness: a configuration with every key absent. -/
theorem C7_missing_key_witness :
    ∃ k, run_pipeline (fun _ => true) (fun _ => false) 1 []
      ⟨none, none, none, none, none, none, none, none⟩ =
      ([], some (PipeErr.keyErr k)) :=
  C7_missing_key (fun _ => true) (fun _ => false) 1 []
    ⟨none, none, none, none, none, none, none, none⟩ (Or.inl rfl)

/-- C9.  When the configured speaker key names no attribute of the
`speakers` module, `run_pipeline` raises the `AttributeError` at the
`getattr` on line 169, before creating the save directory, before
chunking the dataset and before starting any worker: the event trace is
empty. -/
theorem C9_unknown_speaker (speakers : String → Bool) (alive : Nat → Bool)
    (fuel : Nat) (dataset : List (String × Int)) (config : PipelineConfig)
    (u : UnpackedConfig) (hu : unpackConfig config = Except.ok u)
    (hspk : speakers u.speaker = false) :
    run_pipeline speakers alive fuel dataset config =
      ([], some (PipeErr.attrErr u.speaker)) := by
  simp [run_pipeline, hu, hspk]

/-- C9 witness: a complete configuration whose speaker registry rejects
every key. -/
theorem C9_unknown_speaker_witness :
    run_pipeline (fun _ => false) (fun _ => false) 1 [("a", 0)]
      ⟨some ["d0"], some 1, some "out", some 3, some 16000, some 4,
       some "ghost", some "wav"⟩ =
      ([], some (PipeErr.attrErr "ghost")) :=
  C9_unknown_speaker (fun _ => false) (fun _ => false) 1 [("a", 0)]
    ⟨some ["d0"], some 1, some "out", some 3, some 16000, some 4,
     some "ghost", some "wav"⟩
    ⟨["d0"], 1, "out", 3, 16000, 4, "ghost", "wav"⟩ rfl rfl

/-- C8.  On a successful run whose workers all terminate, the trace of
`main` is: the directory creation, the worker launches, `n` polling
rounds each logging the shared counter then sleeping sixty units, one
join per worker, the final-count log, and then the upload handoff — which
occurs exactly when it is configured, hence at most once, and only after
every worker has been joined. -/
theorem C8_poll_join_upload (speakers : String → Bool) (alive : Nat → Bool)
    (fuel : Nat) (dataset : List (String × Int)) (config : PipelineConfig)
    (u : UnpackedConfig) (upload_to_s3 : Bool)
    (hu : unpackConfig config = Except.ok u)
    (hspk : speakers u.speaker = true)
    (hW : u.devices.length * u.num_procs_per_device ≠ 0)
    (hterm : ∃ k, k < fuel ∧ alive k = false) :
    ∃ n chunks, create_non_overlapping_chunks dataset
        (u.devices.length * u.num_procs_per_device) = Except.ok chunks ∧
      mainRun speakers alive fuel dataset config upload_to_s3 =
        ((OrchEvent.makedirs u.save_dir ::
          ((List.range chunks.length).map (fun i =>
            OrchEvent.startWorker i (u.devices.getD (i % u.devices.length) "")
              (chunks.getD i [])) ++
           pollSeg n ++
           (List.range chunks.length).map OrchEvent.joinWorker ++
           [OrchEvent.logFinal])) ++
          (if upload_to_s3 then [OrchEvent.uploadToS3] else []), none) ∧
      countUpload (mainRun speakers alive fuel dataset config upload_to_s3).1 =
        (if upload_to_s3 then 1 else 0) ∧
      (∀ i, i < chunks.length →
        OrchEvent.joinWorker i ∈
          (run_pipeline speakers alive fuel dataset config).1) := by
  obtain ⟨n, hn⟩ := waitLoop_pollSeg alive fuel 0 (by simpa using hterm)
  have hchunks : create_non_overlapping_chunks dataset
      (u.devices.length * u.num_procs_per_device) =
      Except.ok (splitBalanced dataset
        (u.devices.length * u.num_procs_per_device)) := by
    simp [create_non_overlapping_chunks, hW]
  have hrp := run_pipeline_ok speakers alive fuel dataset config u hu hspk hW
  rw [hn] at hrp
  have hmain : mainRun speakers alive fuel dataset config upload_to_s3 =
      ((OrchEvent.makedirs u.save_dir ::
        ((List.range (splitBalanced dataset
            (u.devices.length * u.num_procs_per_device)).length).map (fun i =>
          OrchEvent.startWorker i (u.devices.getD (i % u.devices.length) "")
            ((splitBalanced dataset
              (u.devices.length * u.num_procs_per_device)).getD i [])) ++
         pollSeg n ++
         (List.range (splitBalanced dataset
           (u.devices.length * u.num_procs_per_device)).length).map
             OrchEvent.joinWorker ++
         [OrchEvent.logFinal])) ++
        (if upload_to_s3 then [OrchEvent.uploadToS3] else []), none) := by
    simp [mainRun, hrp]
  refine ⟨n, splitBalanced dataset (u.devices.length * u.num_procs_per_device),
    hchunks, hmain, ?_, ?_⟩
  · have hmain1 : (mainRun speakers alive fuel dataset config upload_to_s3).1 =
        (OrchEvent.makedirs u.save_dir ::
        ((List.range (splitBalanced dataset
            (u.devices.length * u.num_procs_per_device)).length).map (fun i =>
          OrchEvent.startWorker i (u.devices.getD (i % u.devices.length) "")
            ((splitBalanced dataset
              (u.devices.length * u.num_procs_per_device)).getD i [])) ++
         pollSeg n ++
         (List.range (splitBalanced dataset
           (u.devices.length * u.num_procs_per_device)).length).map
             OrchEvent.joinWorker ++
         [OrchEvent.logFinal])) ++
        (if upload_to_s3 then [OrchEvent.uploadToS3] else []) := by
      rw [hmain]
    rw [hmain1]
    rw [countUpload_append, countUpload_makedirs]
    rw [countUpload_append, countUpload_append, countUpload_append]
    rw [countUpload_pollSeg, countUpload_joinMap]
    rw [countUpload_startMap (fun i => u.devices.getD (i % u.devices.length) "")
      (fun i => (splitBalanced dataset
        (u.devices.length * u.num_procs_per_device)).getD i [])]
    cases upload_to_s3 <;> simp [countUpload]
  · intro i hi
    rw [hrp]
    simp only [List.mem_cons, List.mem_append]
    have hmem : OrchEvent.joinWorker i ∈ (List.range (splitBalanced dataset
        (u.devices.length * u.num_procs_per_device)).length).map
          OrchEvent.joinWorker :=
      List.mem_map_of_mem OrchEvent.joinWorker (List.mem_range.mpr hi)
    tauto

/-- C8 witness: one device, one worker, workers dead at the first poll,
upload configured. -/
theorem C8_poll_join_upload_witness :
    ∃ n chunks, create_non_overlapping_chunks [("a", 0)]
        ((["d0"] : List String).length * 1) = Except.ok chunks ∧
      mainRun (fun _ => true) (fun _ => false) 1 [("a", 0)]
        ⟨some ["d0"], some 1, some "out", some 3, some 16000, some 4,
         some "bob", some "wav"⟩ true =
        ((OrchEvent.makedirs "out" ::
          ((List.range chunks.length).map (fun i =>
            OrchEvent.startWorker i ((["d0"] : List String).getD
              (i % (["d0"] : List String).length) "") (chunks.getD i [])) ++
           pollSeg n ++
           (List.range chunks.length).map OrchEvent.joinWorker ++
           [OrchEvent.logFinal])) ++
          (if true then [OrchEvent.uploadToS3] else []), none) ∧
      countUpload (mainRun (fun _ => true) (fun _ => false) 1 [("a", 0)]
        ⟨some ["d0"], some 1, some "out", some 3, some 16000, some 4,
         some "bob", some "wav"⟩ true).1 = (if true then 1 else 0) ∧
      (∀ i, i < chunks.length →
        OrchEvent.joinWorker i ∈ (run_pipeline (fun _ => true) (fun _ => false) 1
          [("a", 0)]
          ⟨some ["d0"], some 1, some "out", some 3, some 16000, some 4,
           some "bob", some "wav"⟩).1) :=
  C8_poll_join_upload (fun _ => true) (fun _ => false) 1 [("a", 0)]
    ⟨some ["d0"], some 1, some "out", some 3, some 16000, some 4,
     some "bob", some "wav"⟩
    ⟨["d0"], 1, "out", 3, 16000, 4, "bob", "wav"⟩ true rfl rfl (by decide)
    ⟨0, by decide, rfl⟩

end SyntheticDataPipeline
